import Mathlib

/-!
Verification development for the `state` repository (package `manager`,
file `manager.go`).  The Go code is shallowly embedded: the reflective
selective-format encoder/decoder (`stateMarshal` / `stateUnmarshal`),
the `Save` file-writing path, and the `Exists` check are translated into
executable Lean definitions, and the mutex discipline of `Save`/`Load`
is modelled as a small transition system.

External collaborators are modelled where the Go code calls them:
* `gopkg.in/yaml.v3`: decoding a YAML document into `map[string]interface{}`
  produces dynamically typed values; its resolver yields Go `int` for any
  integer scalar fitting in int64, `uint64` for larger unsigned scalars,
  `float64` for other numeric scalars, plus `string`, `bool`, `nil`, and
  composite values.  The type `YamlVal` below enumerates that value space.
* `strconv.ParseInt/ParseUint/ParseBool/ParseFloat` are reimplemented for
  the base-10 / bit-size-64 arguments used by the code.
Floating-point values are represented exactly as rationals; all claims
only exercise values (small decimals) on which float64 arithmetic is
exact, and the comments note where Go's conversions are
implementation-dependent outside the modelled range.
-/

namespace Manager

/-- The kinds of primitive Go field types handled by the decode switch in
`stateUnmarshal` (manager.go lines 216-263): string, the signed integer
kinds, the unsigned integer kinds, the float kinds, and bool.  One width
(64 bits) per kind is modelled; no claim exercises narrower widths. -/
inductive PrimKind where
  | kString
  | kInt
  | kUint
  | kFloat
  | kBool
deriving DecidableEq, Repr

/-- A primitive Go value stored in a struct field.  Floats are modelled
exactly as rationals. -/
inductive Prim where
  | vString (s : String)
  | vInt (n : Int)
  | vUint (n : Nat)
  | vFloat (q : ℚ)
  | vBool (b : Bool)
deriving DecidableEq, Repr

/-- A Go field value: either a primitive or a pointer to a primitive
(`*string`, `*int`, ...).  `ptr k none` is a nil pointer of element
kind `k`. -/
inductive GoVal where
  | prim (p : Prim)
  | ptr (k : PrimKind) (o : Option Prim)
deriving DecidableEq, Repr

/-- One struct field as reflection sees it: its Go name, the value of the
`state` tag (`""` when the tag is absent, exactly as `Tag.Get` reports),
whether `reflect.Value.CanSet` holds (true iff the field is exported),
and its current value. -/
structure Field where
  name : String
  tag : String
  settable : Bool
  value : GoVal
deriving DecidableEq, Repr

/-- A struct record: the ordered list of its fields. -/
structure Record where
  fields : List Field
deriving DecidableEq, Repr

/-- Dynamic values produced by `yaml.v3` when decoding into
`map[string]interface{}`.  `yInt` is Go `int` (the resolver returns `int`
for every integer scalar that fits in int64 on a 64-bit platform),
`yUint64` covers integer scalars in [2^63, 2^64), `yFloat` is `float64`,
and `yOther` stands for composite values (maps, sequences, timestamps)
whose precise shape no claim depends on. -/
inductive YamlVal where
  | yNull
  | yBool (b : Bool)
  | yInt (n : Int)
  | yUint64 (n : Nat)
  | yFloat (q : ℚ)
  | yStr (s : String)
  | yOther
deriving DecidableEq, Repr

/-! ### strconv models -/

/-- Numeric value of a list of decimal digit characters. -/
def natOfDigits (cs : List Char) : Nat :=
  cs.foldl (fun a c => 10 * a + (c.toNat - 48)) 0

/-- Model of `strconv.ParseUint(s, 10, 64)`: a nonempty all-digit string
(no sign prefix is permitted by ParseUint) whose value fits in 64 bits;
everything else is an error (`none`). -/
def parseUint10 (s : String) : Option Nat :=
  let cs := s.toList
  if cs.isEmpty then none
  else if ¬ (cs.all Char.isDigit) then none
  else
    let n := natOfDigits cs
    if n < 2 ^ 64 then some n else none

/-- Model of `strconv.ParseInt(s, 10, 64)`: optional single sign, then a
nonempty digit string; range errors (outside int64) are errors. -/
def parseInt10 (s : String) : Option Int :=
  let cs := s.toList
  let signDigits : Bool × List Char :=
    match cs with
    | '+' :: r => (false, r)
    | '-' :: r => (true, r)
    | r => (false, r)
  let neg := signDigits.1
  let ds := signDigits.2
  if ds.isEmpty then none
  else if ¬ (ds.all Char.isDigit) then none
  else
    let n := natOfDigits ds
    if neg then
      if n ≤ 2 ^ 63 then some (-(n : Int)) else none
    else
      if n < 2 ^ 63 then some (n : Int) else none

/-- Model of `strconv.ParseBool`: exactly the strings Go accepts. -/
def parseBoolG (s : String) : Option Bool :=
  if s = "1" ∨ s = "t" ∨ s = "T" ∨ s = "TRUE" ∨ s = "true" ∨ s = "True" then
    some true
  else if s = "0" ∨ s = "f" ∨ s = "F" ∨ s = "FALSE" ∨ s = "false" ∨ s = "False" then
    some false
  else none

/-- Ten to an integer power, as a rational. -/
def qpow10 (e : Int) : ℚ :=
  if 0 ≤ e then ((10 : ℚ) ^ e.toNat) else ((10 : ℚ) ^ (-e).toNat)⁻¹

/-- Mantissa of a decimal float literal: `digits`, `digits.digits`,
`digits.`, or `.digits`, with at least one digit. -/
def parseDecMantissa (cs : List Char) : Option ℚ :=
  match cs.span Char.isDigit with
  | (ip, []) => if ip.isEmpty then none else some ((natOfDigits ip : ℚ))
  | (ip, '.' :: fp) =>
    if fp.all Char.isDigit ∧ ¬ (ip.isEmpty ∧ fp.isEmpty) then
      some ((natOfDigits ip : ℚ) + (natOfDigits fp : ℚ) / (10 : ℚ) ^ fp.length)
    else none
  | _ => none

/-- Optionally signed decimal exponent (no bound; Go clamps huge
exponents to infinity/zero, a case no claim exercises). -/
def parseExp (cs : List Char) : Option Int :=
  let signDigits : Bool × List Char :=
    match cs with
    | '+' :: r => (false, r)
    | '-' :: r => (true, r)
    | r => (false, r)
  if signDigits.2.isEmpty then none
  else if ¬ (signDigits.2.all Char.isDigit) then none
  else
    let n : Int := (natOfDigits signDigits.2 : Int)
    some (if signDigits.1 then -n else n)

/-- Model of `strconv.ParseFloat(s, 64)` restricted to plain decimal
syntax (optional sign, decimal mantissa, optional `e`/`E` exponent).
Hexadecimal floats, underscores, `inf` and `nan` are not modelled; the
result is the exact rational value (float64 rounding is immaterial to
every claim, none of which relies on this parser). -/
def parseFloatQ (s : String) : Option ℚ :=
  let cs := s.toList
  let signRest : Bool × List Char :=
    match cs with
    | '+' :: r => (false, r)
    | '-' :: r => (true, r)
    | r => (false, r)
  let body := signRest.2
  let mantExp : List Char × Option (List Char) :=
    match body.span (fun c => !(c = 'e' || c = 'E')) with
    | (m, []) => (m, none)
    | (m, _ :: e) => (m, some e)
  let mant? := parseDecMantissa mantExp.1
  match mant?, mantExp.2 with
  | some q, none => some (if signRest.1 then -q else q)
  | some q, some ecs =>
    match parseExp ecs with
    | some e => some ((if signRest.1 then -q else q) * qpow10 e)
    | none => none
  | none, _ => none

/-! ### Go numeric conversions -/

/-- Truncation of a rational toward zero, as Go's float-to-integer
conversion does.  For values outside int64 range the Go result is
implementation-dependent; the model keeps the mathematical truncation,
and the theorems about signed conversion carry an in-range hypothesis. -/
def ratTrunc (q : ℚ) : Int :=
  q.num.tdiv (q.den : Int)

/-- Model of Go's `uint64(v)` applied to a float64: truncate toward zero
and reduce modulo 2^64.  In Go the out-of-range (negative or huge) case
is implementation-dependent; the wrap-around is one conforming model,
and no claim depends on the exact out-of-range value. -/
def goUintOfFloat (q : ℚ) : Nat :=
  ((ratTrunc q) % ((2 : Int) ^ 64)).toNat

/-! ### The selective-format decoder (stateUnmarshal, manager.go 190-268) -/

/-- Coercion for string-kind fields (manager.go 217-220): only a decoded
string value is accepted. -/
def coerceString (v : YamlVal) : Option String :=
  match v with
  | .yStr s => some s
  | _ => none

/-- Coercion for signed-integer fields (manager.go 221-233): the type
switch accepts `int`, `int64` (unreachable: the yaml resolver returns
`int` whenever the scalar fits in int64 on 64-bit platforms), `float64`
(converted by truncation), and `string` (ParseInt base 10); any other
dynamic type, including `uint64`, falls through with no assignment. -/
def coerceInt (v : YamlVal) : Option Int :=
  match v with
  | .yInt n => some n
  | .yFloat q => some (ratTrunc q)
  | .yStr s => parseInt10 s
  | _ => none

/-- Coercion for unsigned-integer fields (manager.go 234-246): the type
switch accepts `uint` and `uint64` (only `uint64` is ever produced by
the yaml decoder), `float64` (converted, with no sign or range check),
and `string` (ParseUint base 10); a decoded `int` value does NOT match
any case and is dropped. -/
def coerceUint (v : YamlVal) : Option Nat :=
  match v with
  | .yUint64 n => some n
  | .yFloat q => some (goUintOfFloat q)
  | .yStr s => parseUint10 s
  | _ => none

/-- Coercion for float fields (manager.go 247-254): `float64` values are
taken as-is, strings go through ParseFloat; a decoded `int` value fails
the `value.(float64)` assertion and is dropped. -/
def coerceFloat (v : YamlVal) : Option ℚ :=
  match v with
  | .yFloat q => some q
  | .yStr s => parseFloatQ s
  | _ => none

/-- Coercion for bool fields (manager.go 255-262): bool values are taken
as-is, strings go through ParseBool. -/
def coerceBool (v : YamlVal) : Option Bool :=
  match v with
  | .yBool b => some b
  | .yStr s => parseBoolG s
  | _ => none

/-- One pass of the kind switch of `stateUnmarshal` (manager.go 216-263)
on a field's current value: on coercion failure the current value is
kept (the switch arms only assign inside their `if ok` branches).  The
switch has NO `reflect.Ptr` case, so pointer-typed fields are always
left unchanged. -/
def updateGoVal (cur : GoVal) (v : YamlVal) : GoVal :=
  match cur with
  | .prim (.vString s) => .prim (.vString ((coerceString v).getD s))
  | .prim (.vInt n) => .prim (.vInt ((coerceInt v).getD n))
  | .prim (.vUint n) => .prim (.vUint ((coerceUint v).getD n))
  | .prim (.vFloat q) => .prim (.vFloat ((coerceFloat v).getD q))
  | .prim (.vBool b) => .prim (.vBool ((coerceBool v).getD b))
  | .ptr k o => .ptr k o

/-- The external key of a field (manager.go 205-208): the `state` tag if
present, otherwise the lowercased field name.  `strings.ToLower` is
modelled for ASCII names via `Char.toLower`. -/
def externalKey (f : Field) : String :=
  if f.tag ≠ "" then f.tag else String.mk (f.name.toList.map Char.toLower)

/-- Lookup in the decoded `map[string]interface{}`, represented as an
association list.  YAML mappings reject duplicate keys, so the lists a
decode can actually see have distinct keys and the first-match rule
coincides with map lookup. -/
def lookupKey (k : String) : List (String × YamlVal) → Option YamlVal
  | [] => none
  | (k2, v) :: rest => if k = k2 then some v else lookupKey k rest

/-- The per-field body of the decode loop (manager.go 210-264): if the
field's external key is absent from the mapping the field is untouched;
if the field is not settable it is skipped; otherwise the kind switch
runs. -/
def decodeField (values : List (String × YamlVal)) (f : Field) : Field :=
  match lookupKey (externalKey f) values with
  | none => f
  | some v =>
    if f.settable = false then f
    else { f with value := updateGoVal f.value v }

/-- The field loop of `stateUnmarshal` applied to an already-decoded
mapping: each field is processed independently. -/
def stateUnmarshalDoc (values : List (String × YamlVal)) (r : Record) : Record :=
  ⟨r.fields.map (decodeField values)⟩

/-- The dynamic type of the `interface{}` target passed to
`stateUnmarshal`: not a pointer at all, a pointer to a non-struct value
(for example `*int`), or a pointer to a struct. -/
inductive GoTarget where
  | nonPtr
  | ptrNonStruct
  | ptrStruct (r : Record)
deriving DecidableEq, Repr

/-- Input bytes of `stateUnmarshal`, represented by their
`yaml.Unmarshal` outcome when decoded into `map[string]interface{}`:
either an error (malformed YAML, or a document that is not a mapping) or
a mapping. -/
inductive YamlDoc where
  | notMapping
  | mapping (kvs : List (String × YamlVal))
deriving DecidableEq, Repr

/-- Possible outcomes of `stateUnmarshal`: normal return with the updated
record, the invalid-target error (manager.go 191-193), a YAML decode
error (manager.go 196-198), or a runtime panic (reflect `NumField` on a
non-struct type, manager.go 203). -/
inductive UnmarshalOutcome where
  | ok (r : Record)
  | errTarget
  | errYaml
  | panicked
deriving DecidableEq, Repr

/-- Model of `stateUnmarshal` (manager.go 190-268), in the code's order:
the pointer check first, then `yaml.Unmarshal` into a map, then field
introspection: calling `NumField` on the element type of a pointer to a
non-struct panics. -/
def stateUnmarshal (d : YamlDoc) (v : GoTarget) : UnmarshalOutcome :=
  match v with
  | .nonPtr => .errTarget
  | .ptrNonStruct =>
    match d with
    | .notMapping => .errYaml
    | .mapping _ => .panicked
  | .ptrStruct r =>
    match d with
    | .notMapping => .errYaml
    | .mapping kvs => .ok (stateUnmarshalDoc kvs r)

/-! ### The selective-format encoder (stateMarshal, manager.go 164-187) -/

/-- The map built by `stateMarshal`: every field carrying a nonempty
`state` tag contributes (tag, current value); untagged fields are
skipped entirely.  Go stores these in a map and `yaml.Marshal` emits the
keys sorted; the association-list order is immaterial because all access
is by key.  (Reading an unexported tagged field would panic in
`reflect.Value.Interface`; records with tagged unexported fields are
outside every claim and the theorems carry settability hypotheses where
it matters.) -/
def stateMarshalDoc (r : Record) : List (String × GoVal) :=
  (r.fields.filter (fun f => f.tag ≠ "")).map (fun f => (f.tag, f.value))

/-- Schematic rendering of a primitive for the YAML byte layer.  Claims
inspect only structural facts of the rendered text (notably
nonemptiness); exact byte fidelity lives in `yamlRT` below. -/
def renderPrim (p : Prim) : String :=
  match p with
  | .vString s => s
  | .vInt n => toString n
  | .vUint n => toString n
  | .vFloat q => toString q
  | .vBool b => if b then "true" else "false"

/-- Schematic rendering of a field value (yaml.v3 dereferences pointers
and renders nil as null). -/
def renderGoVal (g : GoVal) : String :=
  match g with
  | .prim p => renderPrim p
  | .ptr _ none => "null"
  | .ptr _ (some p) => renderPrim p

/-- One `key: value` line of the rendered mapping. -/
def renderLine (p : String × GoVal) : String :=
  p.1 ++ ": " ++ renderGoVal p.2 ++ "\n"

/-- Concatenation of the `key: value` lines of a mapping. -/
def yamlRenderLines : List (String × GoVal) → String
  | [] => ""
  | p :: rest => renderLine p ++ yamlRenderLines rest

/-- Model of `yaml.Marshal` applied to the built map: the empty map
renders as the flow mapping `\x7b\x7d` plus newline (as yaml.v3 emits),
a nonempty map as one line per entry.  Every output is nonempty. -/
def yamlRender (doc : List (String × GoVal)) : String :=
  match doc with
  | [] => "\x7b\x7d\n"
  | p :: rest => renderLine p ++ yamlRenderLines rest

/-- Model of `stateMarshal` (manager.go 164-187): build the tag-keyed
map and YAML-render it.  `yaml.Marshal` cannot fail on a map of the
primitive values modelled here, so no error case arises. -/
def stateMarshal (r : Record) : String :=
  yamlRender (stateMarshalDoc r)

/-- Value-level model of a YAML marshal/unmarshal round trip through
bytes, per yaml.v3's resolver: integers that fit in int64 come back as
Go `int`; integers in [2^63, 2^64) come back as `uint64`; float64
values with integral value render without a decimal point (FormatFloat
with format g) and therefore come back as integers, while non-integral
floats come back as `float64`; strings are quoted as needed and come
back verbatim; booleans and nil survive; pointers are dereferenced on
encode.  Branches marked unreachable cannot arise from Go's bounded
types and are mapped to `yOther`. -/
def yamlRTPrim (p : Prim) : YamlVal :=
  match p with
  | .vString s => .yStr s
  | .vInt n => if -(2 ^ 63) ≤ n ∧ n < 2 ^ 63 then .yInt n else .yOther
  | .vUint n =>
    if n < 2 ^ 63 then .yInt (n : Int)
    else if n < 2 ^ 64 then .yUint64 n
    else .yOther
  | .vFloat q =>
    if q.den = 1 then
      if -(2 ^ 63) ≤ q.num ∧ q.num < 2 ^ 63 then .yInt q.num
      else if 0 ≤ q.num ∧ q.num < 2 ^ 64 then .yUint64 q.num.toNat
      else .yFloat q
    else .yFloat q
  | .vBool b => .yBool b

/-- Round-trip value transformation for a stored field value. -/
def yamlRT (g : GoVal) : YamlVal :=
  match g with
  | .prim p => yamlRTPrim p
  | .ptr _ none => .yNull
  | .ptr _ (some p) => yamlRTPrim p

/-- Zero value of a primitive kind. -/
def zeroPrim (k : PrimKind) : Prim :=
  match k with
  | .kString => .vString ""
  | .kInt => .vInt 0
  | .kUint => .vUint 0
  | .kFloat => .vFloat 0
  | .kBool => .vBool false

/-- Kind of a primitive value. -/
def primKind (p : Prim) : PrimKind :=
  match p with
  | .vString _ => .kString
  | .vInt _ => .kInt
  | .vUint _ => .kUint
  | .vFloat _ => .kFloat
  | .vBool _ => .kBool

/-- Zero value of the same Go type as a given value (nil for pointers). -/
def zeroGoVal (g : GoVal) : GoVal :=
  match g with
  | .prim p => .prim (zeroPrim (primKind p))
  | .ptr k _ => .ptr k none

/-- Same field at its zero value. -/
def zeroField (f : Field) : Field :=
  { f with value := zeroGoVal f.value }

/-- Zero-valued record of the same shape. -/
def zeroOf (r : Record) : Record :=
  ⟨r.fields.map zeroField⟩

/-- Selective-format round trip: marshal a record, push the produced
mapping through the YAML byte layer (`yamlRT`), and decode it into a
zero-valued record of the same shape. -/
def stateRoundTrip (r : Record) : Record :=
  stateUnmarshalDoc ((stateMarshalDoc r).map (fun p => (p.1, yamlRT p.2))) (zeroOf r)

/-! ### The persistence coordinator (Save, Exists; manager.go 82-161) -/

/-- Serialization type, a string in Go (`type SerializationType string`). -/
abbrev SerializationType := String

/-- The `json` serialization constant. -/
def JSON : SerializationType := "json"

/-- The `yaml` serialization constant. -/
def YAML : SerializationType := "yaml"

/-- The `bin` serialization constant. -/
def BIN : SerializationType := "bin"

/-- The `state` (selective) serialization constant. -/
def STATE : SerializationType := "state"

/-- The default serialization type (manager.go 33). -/
def SerializationTypeDefault : SerializationType := BIN

/-- Content of the configured target path: `none` when no file exists,
`some s` when a file with bytes `s` exists.  A single-path view of the
filesystem suffices: `Save`, `Load` and `Exists` only ever touch
`s.FilePath`, and the code never creates a temporary sibling file. -/
abbrev FS := Option String

/-- Errors `Save` can return, in the order the code can produce them. -/
inductive SaveErr where
  | createFailed
  | encodeFailed
  | emptyEncoding
  | writeFailed
deriving DecidableEq, Repr

/-- Schematic model of `binaryMarshal` (gob encoding, manager.go
271-278): gob cannot fail on a struct of the primitive field types
modelled here and always emits a nonempty stream; the exact bytes are
opaque to every claim. -/
def binaryMarshal (r : Record) : String :=
  "gob:" ++ yamlRender (r.fields.map (fun f => (f.name, f.value)))

/-- Schematic model of `json.MarshalIndent` on a record of primitive
fields: a full structural dump keyed by field names; cannot fail on
these types and is never empty. -/
def jsonMarshal (r : Record) : String :=
  "json:" ++ yamlRender (r.fields.map (fun f => (f.name, f.value)))

/-- Schematic model of `yaml.Marshal` of the whole record: full
structural dump; cannot fail on these types and is never empty. -/
def yamlMarshalFull (r : Record) : String :=
  yamlRender (r.fields.map (fun f => (f.name, f.value)))

/-- The encoding switch inside `Save` (manager.go 94-105): dispatch on
the serialization type, with the `unsupported serialization format`
error for any other value. -/
def encode (ty : SerializationType) (r : Record) : Except String String :=
  if ty = BIN then .ok (binaryMarshal r)
  else if ty = JSON then .ok (jsonMarshal r)
  else if ty = YAML then .ok (yamlMarshalFull r)
  else if ty = STATE then .ok (stateMarshal r)
  else .error "unsupported serialization format"

/-- Model of `Save` (manager.go 82-123).  The code's order is exactly:
`os.Create(s.FilePath)` FIRST — which truncates an existing target file
to zero length — then the encoding switch, then the defensive
zero-length check, then a single `file.Write`.  There is no temporary
file and no rename.  `createOk`/`writeOk` inject filesystem failures at
the two fallible filesystem steps; a failed write is modelled as leaving
the file in its truncated (empty) state — in general Go may leave some
prefix of the encoded bytes, and in particular never the previous
contents. -/
def Save (fs : FS) (ty : SerializationType) (r : Record)
    (createOk writeOk : Bool) : FS × Option SaveErr :=
  if createOk = false then (fs, some .createFailed)
  else
    let fs1 : FS := some ""
    match encode ty r with
    | .error _ => (fs1, some .encodeFailed)
    | .ok b =>
      if b.length = 0 then (fs1, some .emptyEncoding)
      else if writeOk then (some b, none)
      else (fs1, some .writeFailed)

/-- Model of `Exists` (manager.go 156-161): `os.Stat` on the single-path
filesystem fails with a not-exist error exactly when the file is absent,
so the function returns whether the path holds a file.  It returns a
plain boolean and can signal no error. -/
def existsFile (fs : FS) : Bool :=
  fs.isSome

/-! ### Lock discipline of Save and Load (manager.go 83-84, 127-128)

Both `Save` and `Load` begin with `s.mutex.Lock()` and hold the
per-instance mutex for the whole call via `defer s.mutex.Unlock()`.
The interleaving of concurrent callers is modelled as a transition
system: each thread is idle, waiting for the lock, inside the body of a
Save or Load call (the critical section), or finished; the mutex is the
identity of the holding thread, if any. -/

/-- Which operation a thread invokes. -/
inductive Op where
  | save
  | load
deriving DecidableEq, Repr

/-- Per-thread call phase. -/
inductive Phase where
  | idle
  | waiting (op : Op)
  | critical (op : Op)
  | finished (op : Op)
deriving DecidableEq, Repr

/-- Global state: the mutex (holder thread, if held) and each thread's
phase. -/
structure MgrState where
  lock : Option Nat
  threads : Nat → Phase

/-- Initial state: mutex free, every thread idle. -/
def initMgr : MgrState :=
  ⟨none, fun _ => .idle⟩

/-- Interleaving steps: a thread invokes Save or Load (`call`), acquires
the free mutex (`acquire`, the `s.mutex.Lock()` line), or returns and
releases it (`release`, the deferred `s.mutex.Unlock()`).  The mutex is
acquired only when free, exactly the semantics of `sync.Mutex`. -/
inductive MStep : MgrState → MgrState → Prop where
  | call (s : MgrState) (t : Nat) (op : Op) :
      s.threads t = .idle →
      MStep s ⟨s.lock, Function.update s.threads t (.waiting op)⟩
  | acquire (s : MgrState) (t : Nat) (op : Op) :
      s.threads t = .waiting op →
      s.lock = none →
      MStep s ⟨some t, Function.update s.threads t (.critical op)⟩
  | release (s : MgrState) (t : Nat) (op : Op) :
      s.threads t = .critical op →
      MStep s ⟨none, Function.update s.threads t (.finished op)⟩

/-- States reachable from the initial state by interleaving steps. -/
inductive ReachableMgr : MgrState → Prop where
  | init : ReachableMgr initMgr
  | step {s s' : MgrState} : ReachableMgr s → MStep s s' → ReachableMgr s'

/-- Lock invariant: any thread inside the body of Save or Load holds the
mutex. -/
def LockInv (s : MgrState) : Prop :=
  ∀ t op, s.threads t = .critical op → s.lock = some t

/-- The nonempty `state` tags of a record, in field order: exactly the
keys of the mapping `stateMarshal` emits. -/
def tagKeys (r : Record) : List String :=
  (r.fields.filter (fun f => f.tag ≠ "")).map (fun f => f.tag)

/-- Values that survive a selective-format round trip through the YAML
byte layer: strings and booleans always; signed integers (in int64
range, as every Go int value is); floats of non-integral value (an
integral float renders without a decimal point and is re-decoded as an
integer, which the float case of the decode switch drops).  Unsigned
fields do not round-trip in general (the yaml resolver returns `int`
for every value below 2^63, which the unsigned case drops), nor do
pointer fields (no `reflect.Ptr` case on decode). -/
def roundTripsB (g : GoVal) : Bool :=
  match g with
  | .prim (.vString _) => true
  | .prim (.vBool _) => true
  | .prim (.vInt n) => decide (-(2 ^ 63) ≤ n) && decide (n < 2 ^ 63)
  | .prim (.vFloat q) => decide (q.den ≠ 1)
  | _ => false

/-! ### Helper lemmas -/

/-- Lookup of a key absent from the association list fails. -/
theorem lookupKey_eq_none (k : String) (kvs : List (String × YamlVal))
    (h : k ∉ kvs.map Prod.fst) : lookupKey k kvs = none := by
  induction kvs with
  | nil => rfl
  | cons p rest ih =>
    simp only [List.map_cons, List.mem_cons] at h
    push_neg at h
    simp only [lookupKey, if_neg h.1]
    exact ih h.2

/-- Under distinct keys, lookup of a present pair returns its value. -/
theorem lookupKey_eq_some (k : String) (v : YamlVal)
    (kvs : List (String × YamlVal)) (hnd : (kvs.map Prod.fst).Nodup)
    (hm : (k, v) ∈ kvs) : lookupKey k kvs = some v := by
  induction kvs with
  | nil => cases hm
  | cons p rest ih =>
    simp only [List.map_cons, List.nodup_cons] at hnd
    rcases List.mem_cons.mp hm with heq | hmem
    · subst heq
      simp [lookupKey]
    · have hk : k ≠ p.1 := by
        intro hkk
        exact hnd.1 (hkk ▸ (List.mem_map.mpr ⟨(k, v), hmem, rfl⟩))
      simp only [lookupKey, if_neg hk]
      exact ih hnd.2 hmem

/-- Decoding from an empty mapping changes nothing. -/
theorem decodeField_nil (f : Field) : decodeField [] f = f := rfl

/-- When the field's key is found and the field is settable, the decode
loop assigns the coerced value. -/
theorem decodeField_found (values : List (String × YamlVal)) (f : Field)
    (v : YamlVal) (hv : lookupKey (externalKey f) values = some v)
    (hs : f.settable = true) :
    decodeField values f = { f with value := updateGoVal f.value v } := by
  unfold decodeField
  rw [hv, hs]
  rfl

/-- Every rendered line is nonempty. -/
theorem renderLine_length_pos (p : String × GoVal) :
    0 < (renderLine p).length := by
  have h2 : (": ").length = 2 := rfl
  have h1 : ("\n").length = 1 := rfl
  simp only [renderLine, String.length_append, h2, h1]
  omega

/-- The rendered YAML of any mapping is a nonempty byte sequence. -/
theorem yamlRender_length_pos (doc : List (String × GoVal)) :
    0 < (yamlRender doc).length := by
  cases doc with
  | nil => decide
  | cons p rest =>
    simp only [yamlRender, String.length_append]
    have := renderLine_length_pos p
    omega

/-- Keys of the value-level round-tripped marshal output are the tag
keys of the record. -/
theorem marshal_keys (r : Record) :
    (((stateMarshalDoc r).map (fun p => (p.1, yamlRT p.2))).map Prod.fst)
      = tagKeys r := by
  simp only [stateMarshalDoc, tagKeys, List.map_map]
  rfl

/-- A value satisfying `roundTripsB` is restored exactly by decoding its
round-tripped YAML value into the zero value of its own kind. -/
theorem roundTrips_restore (g : GoVal) (h : roundTripsB g = true) :
    updateGoVal (zeroGoVal g) (yamlRT g) = g := by
  cases g with
  | ptr k o => simp [roundTripsB] at h
  | prim p =>
    cases p with
    | vString s => rfl
    | vBool b => rfl
    | vUint n => simp [roundTripsB] at h
    | vInt n =>
      simp only [roundTripsB, Bool.and_eq_true, decide_eq_true_eq] at h
      norm_num at h
      simp [zeroGoVal, primKind, zeroPrim, yamlRT, yamlRTPrim, h.1, h.2,
        updateGoVal, coerceInt]
    | vFloat q =>
      simp only [roundTripsB, decide_eq_true_eq] at h
      simp [zeroGoVal, primKind, zeroPrim, yamlRT, yamlRTPrim, if_neg h,
        updateGoVal, coerceFloat]

/-! ### Claim theorems -/

/-- C9: the only target validation in `stateUnmarshal` rejects non-pointer
targets with the invalid-target error; a pointer to a non-struct value
(such as a pointer to an int) together with any bytes decoding to a valid
YAML mapping makes `stateUnmarshal` panic when introspecting the target's
fields; freedom from panic holds under the stronger, unchecked
precondition that the target is a pointer to a struct. -/
theorem unmarshal_target_check_panics :
    (∀ d, stateUnmarshal d .nonPtr = .errTarget) ∧
    (∀ kvs, stateUnmarshal (.mapping kvs) .ptrNonStruct = .panicked) ∧
    (∀ d r, stateUnmarshal d (.ptrStruct r) ≠ .panicked) ∧
    (∀ d v, stateUnmarshal d v = .errTarget → v = .nonPtr) := by
  refine ⟨fun d => rfl, fun kvs => rfl, ?_, ?_⟩
  · intro d r
    cases d <;> simp [stateUnmarshal]
  · intro d v h
    cases v <;> cases d <;> simp_all [stateUnmarshal]

/-- C9 witness: a pointer-to-int target with the valid (empty) YAML
mapping panics, and the invalid-target error characterization applies at
a concrete non-pointer target. -/
theorem unmarshal_target_check_panics_witness :
    stateUnmarshal (.mapping [("a", .yInt 1)]) .ptrNonStruct = .panicked ∧
    (GoTarget.nonPtr = GoTarget.nonPtr) :=
  ⟨unmarshal_target_check_panics.2.1 [("a", .yInt 1)],
   unmarshal_target_check_panics.2.2.2 .notMapping .nonPtr rfl⟩

/-- C4 counterexample: the claim says a pointer-to-string field is
allocated and set when the decoded value coerces (here the string
"hello" trivially coerces to a string), but the decode switch has no
`reflect.Ptr` case, so the field remains a nil pointer. -/
theorem ptr_field_counterexample :
    decodeField [("p", .yStr "hello")] ⟨"P", "p", true, .ptr .kString none⟩
      = ⟨"P", "p", true, .ptr .kString none⟩ ∧
    (Field.mk "P" "p" true (.ptr .kString none))
      ≠ ⟨"P", "p", true, .ptr .kString (some (.vString "hello"))⟩ := by
  decide

/-- C4 amended: during selective decode, a field holding a pointer to a
primitive is never populated: whatever the mapping holds under the
field's key, the pointer (nil or not) is left exactly as it was, because
the kind switch handles only the direct primitive kinds. -/
theorem ptr_fields_left_untouched :
    ∀ (values : List (String × YamlVal)) (nm tg : String) (st : Bool)
      (k : PrimKind) (o : Option Prim),
      decodeField values ⟨nm, tg, st, .ptr k o⟩ = ⟨nm, tg, st, .ptr k o⟩ := by
  intro values nm tg st k o
  unfold decodeField
  cases lookupKey (externalKey ⟨nm, tg, st, .ptr k o⟩) values with
  | none => rfl
  | some v => cases st <;> simp [updateGoVal]

/-- C3 counterexample: the decoded mapping holds the integer-typed value
50 (Go `int`, exactly what the yaml layer produces for the scalar 50);
a signed-integer field under the same key is assigned 50, but an
unsigned-integer field is left at its zero value — unsigned coercion
does not behave the same as signed coercion, and an integer-typed
decoded value is not assigned. -/
theorem uint_int_mismatch_counterexample :
    decodeField [("n", .yInt 50)] ⟨"N", "n", true, .prim (.vUint 0)⟩
      = ⟨"N", "n", true, .prim (.vUint 0)⟩ ∧
    decodeField [("n", .yInt 50)] ⟨"N", "n", true, .prim (.vInt 0)⟩
      = ⟨"N", "n", true, .prim (.vInt 50)⟩ ∧
    (Field.mk "N" "n" true (.prim (.vUint 0)))
      ≠ ⟨"N", "n", true, .prim (.vUint 50)⟩ := by
  decide

/-- C3 amended: during selective decode of an unsigned-integer field,
only unsigned-typed decoded values (`uint64`) are assigned; a decoded
floating value is converted to an unsigned integer with no sign or
range check; a string value is parsed as a base-10 unsigned integer;
a decoded `int`-typed value (which the yaml layer produces for every
integer scalar below 2^63) is silently dropped; every coercion failure
leaves the field at its current value and the operation returns no
error. -/
theorem uint_decode_coercion :
    (∀ n, coerceUint (.yUint64 n) = some n) ∧
    (∀ q, coerceUint (.yFloat q) = some (goUintOfFloat q)) ∧
    (∀ s, coerceUint (.yStr s) = parseUint10 s) ∧
    (∀ n, coerceUint (.yInt n) = none) ∧
    (∀ b, coerceUint (.yBool b) = none) ∧
    (∀ (nm : String) (n0 : Nat) (v : YamlVal),
      decodeField [("k", v)] ⟨nm, "k", true, .prim (.vUint n0)⟩
        = ⟨nm, "k", true, .prim (.vUint ((coerceUint v).getD n0))⟩) ∧
    (∀ kvs r, stateUnmarshal (.mapping kvs) (.ptrStruct r)
        = .ok (stateUnmarshalDoc kvs r)) := by
  refine ⟨fun n => rfl, fun q => rfl, fun s => rfl, fun n => rfl, fun b => rfl,
    ?_, fun kvs r => rfl⟩
  intro nm n0 v
  simp [decodeField, externalKey, lookupKey, updateGoVal]

/-- C5: during selective decode of a signed-integer field, a decoded
integer-typed value n yields field value n; a decoded floating value is
truncated toward zero (stated for values whose truncation is in int64
range, where Go's conversion is defined); a decoded string is parsed as
a base-10 integer, the field keeping its previous value when parsing
fails; and invalid values (booleans, null, non-primitive values and
uint64-typed values) are silently skipped with no error from the whole
operation. -/
theorem int_decode_coercion :
    ∀ (nm : String) (i0 n : Int) (q : ℚ) (s : String),
      (decodeField [("k", .yInt n)] ⟨nm, "k", true, .prim (.vInt i0)⟩
        = ⟨nm, "k", true, .prim (.vInt n)⟩) ∧
      (-(2 ^ 63) ≤ ratTrunc q ∧ ratTrunc q < 2 ^ 63 →
        decodeField [("k", .yFloat q)] ⟨nm, "k", true, .prim (.vInt i0)⟩
          = ⟨nm, "k", true, .prim (.vInt (ratTrunc q))⟩) ∧
      (decodeField [("k", .yStr s)] ⟨nm, "k", true, .prim (.vInt i0)⟩
        = ⟨nm, "k", true, .prim (.vInt ((parseInt10 s).getD i0))⟩) ∧
      (∀ b, decodeField [("k", .yBool b)] ⟨nm, "k", true, .prim (.vInt i0)⟩
        = ⟨nm, "k", true, .prim (.vInt i0)⟩) ∧
      (∀ m, decodeField [("k", .yUint64 m)] ⟨nm, "k", true, .prim (.vInt i0)⟩
        = ⟨nm, "k", true, .prim (.vInt i0)⟩) ∧
      (decodeField [("k", .yNull)] ⟨nm, "k", true, .prim (.vInt i0)⟩
        = ⟨nm, "k", true, .prim (.vInt i0)⟩) ∧
      (∀ kvs r, stateUnmarshal (.mapping kvs) (.ptrStruct r)
          = .ok (stateUnmarshalDoc kvs r)) := by
  intro nm i0 n q s
  refine ⟨?_, fun _ => ?_, ?_, fun b => ?_, fun m => ?_, ?_, fun kvs r => rfl⟩ <;>
    simp [decodeField, externalKey, lookupKey, updateGoVal, coerceInt]

/-- C5 witness: the external value 50, decoded as an integer or as the
floating value 50.0, yields field value 50; the unparsable string leaves
the field at zero. -/
theorem int_decode_coercion_witness :
    decodeField [("k", .yInt 50)] ⟨"Age", "k", true, .prim (.vInt 0)⟩
      = ⟨"Age", "k", true, .prim (.vInt 50)⟩ ∧
    decodeField [("k", .yFloat 50)] ⟨"Age", "k", true, .prim (.vInt 0)⟩
      = ⟨"Age", "k", true, .prim (.vInt 50)⟩ ∧
    decodeField [("k", .yStr "abc")] ⟨"Age", "k", true, .prim (.vInt 0)⟩
      = ⟨"Age", "k", true, .prim (.vInt 0)⟩ := by
  have h := int_decode_coercion "Age" 0 50 50 "abc"
  have hq : ratTrunc (50 : ℚ) = 50 := by decide
  have hs : parseInt10 "abc" = none := by decide
  refine ⟨h.1, ?_, ?_⟩
  · have h2 := h.2.1 (by decide)
    rw [hq] at h2
    exact h2
  · have h3 := h.2.2.1
    rw [hs] at h3
    exact h3

/-- C6: during selective decode, fields whose external key is absent
from the decoded mapping and fields that cannot be mutated (unexported)
are left untouched at their current value, and decoding a valid mapping
into a struct target returns no error. -/
theorem decode_missing_key_tolerant :
    (∀ values (f : Field),
      lookupKey (externalKey f) values = none → decodeField values f = f) ∧
    (∀ values (f : Field), f.settable = false → decodeField values f = f) ∧
    (∀ kvs r, stateUnmarshal (.mapping kvs) (.ptrStruct r)
        = .ok (stateUnmarshalDoc kvs r)) := by
  refine ⟨?_, ?_, fun kvs r => rfl⟩
  · intro values f h
    unfold decodeField
    rw [h]
  · intro values f h
    unfold decodeField
    cases lookupKey (externalKey f) values with
    | none => rfl
    | some v => simp [h]

/-- C6 witness: decoding a mapping missing the key "age" into a record
with an annotated age field leaves the field at its zero value and the
operation succeeds with no error. -/
theorem decode_missing_key_tolerant_witness :
    decodeField [("name", .yStr "Jake")] ⟨"Age", "age", true, .prim (.vInt 0)⟩
      = ⟨"Age", "age", true, .prim (.vInt 0)⟩ ∧
    stateUnmarshal (.mapping [("name", .yStr "Jake")])
        (.ptrStruct ⟨[⟨"Age", "age", true, .prim (.vInt 0)⟩]⟩)
      = .ok ⟨[⟨"Age", "age", true, .prim (.vInt 0)⟩]⟩ := by
  have h1 := decode_missing_key_tolerant.1 [("name", .yStr "Jake")]
    ⟨"Age", "age", true, .prim (.vInt 0)⟩ (by decide)
  have h2 := decode_missing_key_tolerant.2.2 [("name", .yStr "Jake")]
    (⟨[⟨"Age", "age", true, .prim (.vInt 0)⟩]⟩ : Record)
  refine ⟨h1, ?_⟩
  rw [h2]
  simp [stateUnmarshalDoc, h1]

/-- C7: `Exists` returns true iff the configured path currently holds a
file (it returns a plain boolean, with no error channel), in particular
false on the empty filesystem before any Save, and true on the
filesystem left by any successful Save. -/
theorem exists_iff_file_present :
    (∀ fs : FS, existsFile fs = true ↔ fs ≠ none) ∧
    (existsFile none = false) ∧
    (∀ (fs : FS) (ty : SerializationType) (r : Record) (cOk wOk : Bool),
      (Save fs ty r cOk wOk).2 = none →
      existsFile (Save fs ty r cOk wOk).1 = true) := by
  refine ⟨?_, rfl, ?_⟩
  · intro fs
    cases fs <;> simp [existsFile]
  · intro fs ty r cOk wOk h
    cases cOk with
    | false => simp [Save] at h
    | true =>
      cases henc : encode ty r with
      | error e => simp [Save, henc] at h
      | ok b =>
        by_cases hb : b.length = 0
        · simp [Save, henc, hb] at h
        · cases wOk with
          | false => simp [Save, henc, hb] at h
          | true => simp [Save, henc, hb, existsFile]

/-- C7 witness: before any Save the file does not exist; after a
successful selective Save on the empty filesystem it does. -/
theorem exists_iff_file_present_witness :
    existsFile none = false ∧
    existsFile (Save none STATE
      (⟨[⟨"Name", "name", true, .prim (.vString "x")⟩]⟩ : Record)
      true true).1 = true :=
  ⟨exists_iff_file_present.2.1,
   exists_iff_file_present.2.2 none STATE
     ⟨[⟨"Name", "name", true, .prim (.vString "x")⟩]⟩ true true (by decide)⟩

/-- C10: a record with no `state`-tagged fields marshals to the YAML
encoding of the empty mapping, a nonempty byte sequence; the zero-length
defensive check in `Save` never fires for selective encoding (for this
record and in fact for every record), so a selective Save succeeds; and
decoding the empty mapping leaves every field of any target record
unchanged. -/
theorem untagged_marshal_nonempty :
    ∀ (r : Record), (∀ f ∈ r.fields, f.tag = "") →
      stateMarshalDoc r = [] ∧
      stateMarshal r = "\x7b\x7d\n" ∧
      (∀ r2 : Record, (stateMarshal r2).length ≠ 0) ∧
      (∀ fs : FS, Save fs STATE r true true = (some "\x7b\x7d\n", none)) ∧
      (∀ t : Record, stateUnmarshalDoc [] t = t) := by
  intro r h
  have hdoc : stateMarshalDoc r = [] := by
    simp only [stateMarshalDoc, List.map_eq_nil_iff, List.filter_eq_nil_iff]
    intro f hf
    simp [h f hf]
  have hm : stateMarshal r = "\x7b\x7d\n" := by
    rw [stateMarshal, hdoc]
    rfl
  refine ⟨hdoc, hm, ?_, ?_, ?_⟩
  · intro r2
    have := yamlRender_length_pos (stateMarshalDoc r2)
    rw [stateMarshal]
    omega
  · intro fs
    have hlen : ("\x7b\x7d\n").length = 3 := rfl
    simp [Save, encode, STATE, BIN, JSON, YAML, hm, hlen]
  · intro t
    cases t with
    | mk fields =>
      simp only [stateUnmarshalDoc, Record.mk.injEq]
      have h1 : fields.map (decodeField []) = fields.map id :=
        List.map_congr_left (fun f _ => decodeField_nil f)
      rw [h1, List.map_id]

/-- C10 witness: a concrete record whose only field is untagged
marshals to the empty-mapping encoding, saves successfully, and the
empty mapping decodes into a target without changing it. -/
theorem untagged_marshal_nonempty_witness :
    stateMarshal (⟨[⟨"Other", "", true, .prim (.vString "zz")⟩]⟩ : Record)
      = "\x7b\x7d\n" ∧
    Save none STATE (⟨[⟨"Other", "", true, .prim (.vString "zz")⟩]⟩ : Record)
      true true = (some "\x7b\x7d\n", none) ∧
    stateUnmarshalDoc []
      (⟨[⟨"Age", "age", true, .prim (.vInt 9)⟩]⟩ : Record)
      = ⟨[⟨"Age", "age", true, .prim (.vInt 9)⟩]⟩ := by
  have h := untagged_marshal_nonempty
    ⟨[⟨"Other", "", true, .prim (.vString "zz")⟩]⟩ (by decide)
  exact ⟨h.2.1, h.2.2.2.1 none, h.2.2.2.2 ⟨[⟨"Age", "age", true, .prim (.vInt 9)⟩]⟩⟩

/-- C1 counterexample: the target file holds a previous valid selective
encoding; a Save that fails at the encoding step (unsupported
serialization type, wrapped by Save as an encode failure) returns an
error, and the target path now points at a zero-length file: the
previously saved contents are NOT observable.  `Save` calls `os.Create`
on the target path — which truncates the existing file — before
encoding; there is no temporary sibling file and no rename anywhere in
the code. -/
theorem save_error_truncates_counterexample :
    (Save (some (stateMarshal
        (⟨[⟨"Name", "name", true, .prim (.vString "Ivan")⟩]⟩ : Record)))
      "xml" (⟨[]⟩ : Record) true true).2 = some .encodeFailed ∧
    (Save (some (stateMarshal
        (⟨[⟨"Name", "name", true, .prim (.vString "Ivan")⟩]⟩ : Record)))
      "xml" (⟨[]⟩ : Record) true true).1 = some "" ∧
    some "" ≠ some (stateMarshal
      (⟨[⟨"Name", "name", true, .prim (.vString "Ivan")⟩]⟩ : Record)) := by
  refine ⟨rfl, rfl, ?_⟩
  intro hcontra
  have : ("" : String) = stateMarshal
      (⟨[⟨"Name", "name", true, .prim (.vString "Ivan")⟩]⟩ : Record) :=
    Option.some.inj hcontra
  exact absurd this (by decide)

/-- C1 amended: `Save` writes directly to the target path, truncating it
via create before encoding; it uses no temporary file and no rename.  A
Save failing at the encoding step or at the write step leaves the target
as a zero-length file, destroying any previously saved contents; only a
fully successful Save leaves the encoded bytes at the target. -/
theorem save_direct_write_behavior :
    (∀ (fs : FS) (ty : SerializationType) (r : Record),
      ty ≠ BIN → ty ≠ JSON → ty ≠ YAML → ty ≠ STATE →
      Save fs ty r true true = (some "", some .encodeFailed)) ∧
    (∀ (fs : FS) (r : Record),
      Save fs STATE r true true = (some (stateMarshal r), none)) ∧
    (∀ (fs : FS) (r : Record),
      Save fs STATE r true false = (some "", some .writeFailed)) := by
  have hnz : ∀ r : Record, ¬ (stateMarshal r).length = 0 := by
    intro r
    have := yamlRender_length_pos (stateMarshalDoc r)
    rw [stateMarshal]
    omega
  refine ⟨?_, ?_, ?_⟩
  · intro fs ty r h1 h2 h3 h4
    simp [Save, encode, h1, h2, h3, h4]
  · intro fs r
    simp [Save, encode, STATE, BIN, JSON, YAML, hnz r]
  · intro fs r
    simp [Save, encode, STATE, BIN, JSON, YAML, hnz r]

/-- C1 amended witness: a Save with the unsupported type "xml" over a
previously saved file errs and leaves the zero-length file. -/
theorem save_direct_write_behavior_witness :
    Save (some "old") "xml" (⟨[]⟩ : Record) true true
      = (some "", some .encodeFailed) :=
  save_direct_write_behavior.1 (some "old") "xml" ⟨[]⟩
    (by decide) (by decide) (by decide) (by decide)

/-- C2 counterexample: a record whose fields are of supported primitive
kinds — an annotated unsigned-integer field A holding 50 and an
unannotated string field B.  Encoding then decoding into a zero-valued
same-shape record leaves A at 0, not 50: the yaml layer returns the
scalar 50 as a Go `int`, which the unsigned case of the decode switch
drops.  The annotated field does NOT equal the original's. -/
theorem state_roundtrip_uint_counterexample :
    stateRoundTrip
        (⟨[⟨"A", "a", true, .prim (.vUint 50)⟩,
           ⟨"B", "", true, .prim (.vString "x")⟩]⟩ : Record)
      = ⟨[⟨"A", "a", true, .prim (.vUint 0)⟩,
          ⟨"B", "", true, .prim (.vString "")⟩]⟩ ∧
    (Field.mk "A" "a" true (.prim (.vUint 0)))
      ≠ ⟨"A", "a", true, .prim (.vUint 50)⟩ := by
  decide

/-- C2 amended: under the selective format, encoding then decoding into
a zero-valued same-shape record restores every annotated field whose
value round-trips through the YAML byte layer — strings, booleans,
signed integers, and floats of non-integral value — and leaves every
unannotated field at its zero value; this requires the annotated fields
to be settable (exported) with pairwise distinct tags and no unannotated
field's lowercased name colliding with a tag.  Annotated unsigned
fields (for values below 2^63) and integral-valued float fields are NOT
restored: they come back as `int`-typed values the decode switch drops
for those kinds, leaving the zero value. -/
theorem state_roundtrip_restores_supported_fields :
    ∀ (r : Record),
      (tagKeys r).Nodup →
      (∀ f ∈ r.fields, f.tag ≠ "" → f.settable = true ∧ roundTripsB f.value = true) →
      (∀ f ∈ r.fields, f.tag = "" →
        String.mk (f.name.toList.map Char.toLower) ∉ tagKeys r) →
      stateRoundTrip r
        = ⟨r.fields.map (fun f => if f.tag = "" then zeroField f else f)⟩ := by
  intro r hnd htag huntag
  unfold stateRoundTrip stateUnmarshalDoc zeroOf
  simp only [List.map_map, Record.mk.injEq]
  apply List.map_congr_left
  intro f hf
  show decodeField _ (zeroField f) = _
  by_cases ht : f.tag = ""
  · rw [if_pos ht]
    have hkey : externalKey (zeroField f)
        = String.mk (f.name.toList.map Char.toLower) := by
      simp [externalKey, zeroField, ht]
    have hnone : lookupKey (externalKey (zeroField f))
        ((stateMarshalDoc r).map (fun p => (p.1, yamlRT p.2))) = none := by
      apply lookupKey_eq_none
      rw [hkey, marshal_keys]
      exact huntag f hf ht
    unfold decodeField
    rw [hnone]
  · rw [if_neg ht]
    obtain ⟨hset, hrt⟩ := htag f hf ht
    have hsub : (f.tag, f.value) ∈ stateMarshalDoc r := by
      apply List.mem_map.mpr
      exact ⟨f, List.mem_filter.mpr ⟨hf, by simp [ht]⟩, rfl⟩
    have hmem : (f.tag, yamlRT f.value)
        ∈ (stateMarshalDoc r).map (fun p => (p.1, yamlRT p.2)) :=
      List.mem_map.mpr ⟨(f.tag, f.value), hsub, rfl⟩
    have hlk : lookupKey f.tag
        ((stateMarshalDoc r).map (fun p => (p.1, yamlRT p.2)))
        = some (yamlRT f.value) := by
      apply lookupKey_eq_some
      · rw [marshal_keys]
        exact hnd
      · exact hmem
    have hkey : externalKey (zeroField f) = f.tag := by
      simp [externalKey, zeroField, ht]
    have hsets : (zeroField f).settable = true := by
      simp [zeroField, hset]
    rw [decodeField_found _ _ _ (by rw [hkey]; exact hlk) hsets]
    have hval : updateGoVal (zeroField f).value (yamlRT f.value) = f.value := by
      simp only [zeroField]
      exact roundTrips_restore f.value hrt
    cases f with
    | mk nm tg st val =>
      simp only [zeroField] at hval ⊢
      simp [hval]

/-- C2 amended witness: a concrete record with an annotated string field
and an unannotated int field round-trips to the annotated field's
original value and the unannotated field's zero value. -/
theorem state_roundtrip_restores_supported_fields_witness :
    stateRoundTrip
        (⟨[⟨"A", "a", true, .prim (.vString "hi")⟩,
           ⟨"B", "", true, .prim (.vInt 7)⟩]⟩ : Record)
      = ⟨[⟨"A", "a", true, .prim (.vString "hi")⟩,
          ⟨"B", "", true, .prim (.vInt 0)⟩]⟩ := by
  have h := state_roundtrip_restores_supported_fields
    ⟨[⟨"A", "a", true, .prim (.vString "hi")⟩,
      ⟨"B", "", true, .prim (.vInt 7)⟩]⟩
    (by decide) (by decide) (by decide)
  rw [h]
  rfl

/-- C8: the per-instance mutex serializes Save and Load: in every state
reachable by interleaving concurrent Save and Load calls, at most one
thread is inside the body of a Save or Load call (its critical section,
which spans the call's full duration between `mutex.Lock()` and the
deferred `mutex.Unlock()`). -/
theorem save_load_mutual_exclusion :
    ∀ (s : MgrState) (t1 t2 : Nat) (op1 op2 : Op),
      ReachableMgr s →
      s.threads t1 = .critical op1 →
      s.threads t2 = .critical op2 →
      t1 = t2 := by
  have hinv : ∀ s : MgrState, ReachableMgr s → LockInv s := by
    intro s hr
    induction hr with
    | init =>
      intro t op h
      simp [initMgr] at h
    | @step s s' _ hst ih =>
      cases hst with
      | call t op hidle =>
        intro t2 op2 h2
        have h2' : Function.update s.threads t (Phase.waiting op) t2
            = Phase.critical op2 := h2
        show s.lock = some t2
        by_cases he : t2 = t
        · subst he
          rw [Function.update_same] at h2'
          cases h2'
        · rw [Function.update_noteq he] at h2'
          exact ih t2 op2 h2'
      | acquire t op hw hfree =>
        intro t2 op2 h2
        have h2' : Function.update s.threads t (Phase.critical op) t2
            = Phase.critical op2 := h2
        show some t = some t2
        by_cases he : t2 = t
        · subst he
          rfl
        · rw [Function.update_noteq he] at h2'
          have hl := ih t2 op2 h2'
          rw [hfree] at hl
          cases hl
      | release t op hc =>
        intro t2 op2 h2
        have h2' : Function.update s.threads t (Phase.finished op) t2
            = Phase.critical op2 := h2
        show none = some t2
        by_cases he : t2 = t
        · subst he
          rw [Function.update_same] at h2'
          cases h2'
        · rw [Function.update_noteq he] at h2'
          have hl2 := ih t2 op2 h2'
          have hl1 := ih t op hc
          rw [hl1] at hl2
          cases hl2
          exact absurd rfl he
  intro s t1 t2 op1 op2 hr h1 h2
  have e1 := hinv s hr t1 op1 h1
  have e2 := hinv s hr t2 op2 h2
  rw [e1] at e2
  exact Option.some.inj e2

/-- C8 witness: the state in which thread 0 has called Save and acquired
the mutex is reachable, thread 0 is in its critical section there, and
the mutual-exclusion theorem applies. -/
theorem save_load_mutual_exclusion_witness : (0 : Nat) = 0 :=
  save_load_mutual_exclusion
    ⟨some 0, Function.update
      (Function.update (fun _ => Phase.idle) 0 (.waiting .save)) 0
      (.critical .save)⟩
    0 0 .save .save
    (.step (.step .init (.call initMgr 0 .save rfl))
      (.acquire _ 0 .save (by simp) rfl))
    (by simp) (by simp)

end Manager
